import Mathlib

/-!
Verification of the pytail follow engine.

A shallow embedding of the multi-file incremental follow engine of
`pytail.py` (functions `follow_file`, `follow_files`, `print_error_message`,
`print_file_header`, `print_lines_from_files`, and the `--follow` step of
`main`), together with theorems settling the specification's claims about it.

Modelling conventions:
* Python `str` content is modelled as `List Char` (Python slicing and
  `len` are per code point, matching `List.drop` / `List.length`;
  `str.startswith` matches `List.isPrefixOf`).
* Each `open`/`read` of a file is modelled by a `ReadResult`: the decoded
  content on success, or the exception class raised
  (`FileNotFoundError`, or `OSError`/`UnicodeDecodeError`).
* The observable side effects of one worker are a trace of `Event`s:
  stdout payload writes, stderr messages, stdout file headers, and sleeps.
  The textual formatting of the header line (`os.path.relpath`, colors,
  the "(following)" suffix, lines 201-209 of pytail.py) is abstracted into
  a `header` event carrying the file name it identifies; the condition
  under which the header is printed at all (line 200) is kept exactly.
* The infinite `while True` loop of `follow_file` is observed along an
  arbitrary finite sequence of reads: `followLoop` consumes a list of
  `ReadResult`s, one per iteration, and stops early (with
  `terminated = true`) when an iteration's read raises, mirroring the
  `try/except` that wraps the loop.
-/

namespace PyTail

/-- Decoded file content: a Python `str` as a list of characters. -/
abbrev Content := List Char

/-- Result of one `open(file_name, "r", encoding=...).read()` call in
`follow_file`: either the decoded content, or the exception class raised.
`FileNotFoundError` is caught first (pytail.py line 92); `OSError` and
`UnicodeDecodeError` share the second handler (line 94). -/
inductive ReadResult where
  | ok (content : Content)
  | fileNotFound
  | ioError
deriving DecidableEq, Repr

/-- One observable action of a follow worker:
`out` is `print(..., end="")` to stdout (line 88); `err` is a line written
to stderr by `print_error_message` (line 188); `header` is the stdout file
header printed by `print_file_header` for the named file (line 209);
`sleep` is `time.sleep(polling_interval)` (line 91). -/
inductive Event where
  | out (s : Content)
  | err (msg : String)
  | header (file : String)
  | sleep (q : ℚ)
deriving DecidableEq, Repr

/-- The constant `Program.NAME` (pytail.py line 47). -/
def PROGRAM_NAME : String := "pytail"

/-- The default of the `polling_interval` parameter of `follow_file`
(pytail.py line 53: `polling_interval: float = .5`), as an exact rational. -/
def DEFAULT_POLLING_INTERVAL : ℚ := 1 / 2

/-- The fields of `Program.args` the follow engine reads:
`args.follow` (`--follow`) and `args.no_file_header` (`--no-file-header`). -/
structure Args where
  follow : Bool
  no_file_header : Bool
deriving DecidableEq, Repr

/-- The function `print_error_message` (pytail.py lines 179-188) with
`raise_system_exit = False`, as called by the follow engine: writes
`f"{Program.NAME}: {error_message}"` to stderr. -/
def print_error_message (error_message : String) : Event :=
  .err (PROGRAM_NAME ++ ": " ++ error_message)

/-- The function `print_file_header` (pytail.py lines 194-209) as invoked from
`follow_file` (so `file` is a nonempty file name): prints nothing when
`--no-file-header` is set (line 200), otherwise one stdout header line
identifying `file` (formatting abstracted, see the module docstring). -/
def print_file_header (args : Args) (file : String) : List Event :=
  if args.no_file_header then [] else [.header file]

/-- The body of one poll iteration of `follow_file`
(pytail.py lines 75-89), given the stored `previous_content` and the
freshly read `next_content`. Returns the new stored content and the events
emitted this iteration (sleep excluded):
if the contents differ, the print index is `len(previous_content)` when
`next_content.startswith(previous_content)`, else 0 with a
"data deleted in" warning when the new content is shorter, else 0 with a
"data modified in" warning; then the optional file header, then
`next_content[print_index:]` to stdout, and `previous_content` is replaced. -/
def pollStep (args : Args) (file_name : String) (pfn : Bool)
    (previous_content next_content : Content) : Content × List Event :=
  if previous_content ≠ next_content then
    let branch : Nat × List Event :=
      if previous_content.isPrefixOf next_content then
        (previous_content.length, [])
      else if next_content.length < previous_content.length then
        (0, [print_error_message ("data deleted in: " ++ file_name)])
      else
        (0, [print_error_message ("data modified in: " ++ file_name)])
    let hdr := if pfn then print_file_header args file_name else []
    (next_content, branch.2 ++ hdr ++ [.out (next_content.drop branch.1)])
  else
    (previous_content, [])

/-- The result of observing a worker along a finite sequence of reads:
its event trace, whether it terminated (left the loop through an except
handler), and the value of `previous_content` when observation stopped. -/
structure RunResult where
  events : List Event
  terminated : Bool
  final_content : Content
deriving DecidableEq, Repr

/-- The `while True` loop of `follow_file` (pytail.py lines 69-95),
observed along a finite list of per-iteration reads. Each successful read
runs the poll body then sleeps; a raising read is caught by the matching
`except` handler, which reports one classified message and ends the
worker. -/
def followLoop (args : Args) (file_name : String) (pfn : Bool)
    (polling_interval : ℚ) :
    Content → List ReadResult → RunResult
  | previous_content, [] => ⟨[], false, previous_content⟩
  | previous_content, .ok next_content :: reads =>
      let step := pollStep args file_name pfn previous_content next_content
      let rest := followLoop args file_name pfn polling_interval step.1 reads
      ⟨step.2 ++ .sleep polling_interval :: rest.events,
        rest.terminated, rest.final_content⟩
  | previous_content, .fileNotFound :: _ =>
      ⟨[print_error_message (file_name ++ " has been deleted")], true,
        previous_content⟩
  | previous_content, .ioError :: _ =>
      ⟨[print_error_message (file_name ++ " is no longer accessible")], true,
        previous_content⟩

/-- The function `follow_file` (pytail.py lines 53-95): the initial read (lines 64-66)
either stores the initial content and enters the loop, or raises and is
caught by the same two handlers. The function never propagates an
exception to its caller (it is total and always returns a `RunResult`). -/
def follow_file (args : Args) (file_name : String) (pfn : Bool)
    (polling_interval : ℚ) (initial : ReadResult)
    (reads : List ReadResult) : RunResult :=
  match initial with
  | .ok previous_content =>
      followLoop args file_name pfn polling_interval previous_content reads
  | .fileNotFound =>
      ⟨[print_error_message (file_name ++ " has been deleted")], true, []⟩
  | .ioError =>
      ⟨[print_error_message (file_name ++ " is no longer accessible")], true, []⟩

/-! ### Helper lemmas about `List.isPrefixOf` on `Content` -/

/-- Python `l.startswith(l)` always holds. -/
theorem isPrefixOf_self : ∀ l : Content, l.isPrefixOf l = true := by
  intro l
  induction l with
  | nil => rfl
  | cons a as ih => simp [List.isPrefixOf, ih]

/-- A strictly longer list is never a prefix of a shorter one. -/
theorem isPrefixOf_eq_false_of_lt :
    ∀ P N : Content, N.length < P.length → P.isPrefixOf N = false := by
  intro P
  induction P with
  | nil => intro N h; simp at h
  | cons a as ih =>
    intro N h
    cases N with
    | nil => rfl
    | cons b bs =>
      simp only [List.length_cons, Nat.succ_lt_succ_iff] at h
      simp [List.isPrefixOf, ih bs h]

/-! ### Claims about the change detector (poll body) -/

/-- Claim C1: For every pair (P, N) with N starting with P and N ≠ P, one
poll iteration classifies the change as an append: it writes exactly the
suffix `N[len(P):]` to stdout (preceded only by the optional file header),
emits no warning on stderr, and the stored previous content becomes N. -/
theorem pollStep_append (args : Args) (file_name : String) (pfn : Bool)
    (P N : Content) (hne : N ≠ P) (hpre : P.isPrefixOf N = true) :
    pollStep args file_name pfn P N =
      (N, (if pfn then print_file_header args file_name else []) ++
        [.out (N.drop P.length)]) ∧
    ∀ m, Event.err m ∉ (pollStep args file_name pfn P N).2 := by
  have hne' : P ≠ N := fun h => hne h.symm
  constructor
  · simp [pollStep, hne', hpre]
  · intro m hm
    simp only [pollStep, hne', hpre] at hm
    rcases args with ⟨f, nfh⟩
    cases pfn <;> cases nfh <;>
      simp [print_file_header, hne', List.mem_append] at hm

/-- Witness for `pollStep_append` at P = "a", N = "ab". -/
theorem pollStep_append_witness :
    pollStep ⟨false, false⟩ "log" false [ 'a' ] [ 'a', 'b' ] =
      ([ 'a', 'b' ], [.out [ 'b' ]]) ∧
    ∀ m, Event.err m ∉ (pollStep ⟨false, false⟩ "log" false
      [ 'a' ] [ 'a', 'b' ]).2 := by
  have h := pollStep_append ⟨false, false⟩ "log" false [ 'a' ] [ 'a', 'b' ]
    (by decide) (by decide)
  exact ⟨by simpa using h.1, h.2⟩

/-- Claim C2: For every pair (P, N) with `len(N) < len(P)`, regardless of
any other similarity, one poll iteration classifies the change as a
truncation: exactly one "data deleted in" warning naming the file goes to
stderr, and the new content N is then printed in full from index 0. -/
theorem pollStep_truncated (args : Args) (file_name : String) (pfn : Bool)
    (P N : Content) (hlt : N.length < P.length) :
    pollStep args file_name pfn P N =
      (N, print_error_message ("data deleted in: " ++ file_name) ::
        ((if pfn then print_file_header args file_name else []) ++
          [.out N])) := by
  have hne : P ≠ N := by
    intro h; subst h; exact absurd hlt (lt_irrefl _)
  have hpre : P.isPrefixOf N = false := isPrefixOf_eq_false_of_lt P N hlt
  simp [pollStep, hne, hpre, hlt]

/-- Witness for `pollStep_truncated` at P = "abc", N = "b" (N is not a
prefix of P nor P of N, and N is shorter). -/
theorem pollStep_truncated_witness :
    pollStep ⟨false, false⟩ "log" true [ 'a', 'b', 'c' ] [ 'b' ] =
      ([ 'b' ], [.err "pytail: data deleted in: log", .header "log",
        .out [ 'b' ]]) := by
  have h := pollStep_truncated ⟨false, false⟩ "log" true
    [ 'a', 'b', 'c' ] [ 'b' ] (by decide)
  simpa [print_error_message, print_file_header, PROGRAM_NAME] using h

/-- Claim C3: For every pair (P, N) where N does not start with P and
`len(N) ≥ len(P)`, one poll iteration classifies the change as a
modification: exactly one "data modified in" warning naming the file goes
to stderr, and the new content N is then printed in full from index 0. -/
theorem pollStep_modified (args : Args) (file_name : String) (pfn : Bool)
    (P N : Content) (hpre : P.isPrefixOf N = false)
    (hge : P.length ≤ N.length) :
    pollStep args file_name pfn P N =
      (N, print_error_message ("data modified in: " ++ file_name) ::
        ((if pfn then print_file_header args file_name else []) ++
          [.out N])) := by
  have hne : P ≠ N := by
    intro h; subst h; rw [isPrefixOf_self] at hpre; exact absurd hpre (by simp)
  have hnlt : ¬ N.length < P.length := not_lt.mpr hge
  simp [pollStep, hne, hpre, hnlt]

/-- Witness for `pollStep_modified` at P = "ab", N = "xy". -/
theorem pollStep_modified_witness :
    pollStep ⟨false, false⟩ "log" false [ 'a', 'b' ] [ 'x', 'y' ] =
      ([ 'x', 'y' ], [.err "pytail: data modified in: log",
        .out [ 'x', 'y' ]]) := by
  have h := pollStep_modified ⟨false, false⟩ "log" false
    [ 'a', 'b' ] [ 'x', 'y' ] (by decide) (by decide)
  simpa [print_error_message, print_file_header, PROGRAM_NAME] using h

/-- Claim C4: A poll that reads content equal to the stored content emits
nothing (no stdout output, no stderr warning) and leaves the stored
content unchanged; hence polling an unchanged file any number n of
consecutive times produces a trace of exactly n sleeps — zero emissions
and zero warnings — and the worker keeps polling. -/
theorem pollStep_unchanged_idempotent (args : Args) (file_name : String)
    (pfn : Bool) (v : ℚ) (P : Content) (n : Nat) :
    pollStep args file_name pfn P P = (P, []) ∧
    followLoop args file_name pfn v P
        (List.replicate n (.ok P)) =
      ⟨List.replicate n (.sleep v), false, P⟩ := by
  have hstep : pollStep args file_name pfn P P = (P, []) := by
    simp [pollStep]
  refine ⟨hstep, ?_⟩
  induction n with
  | zero => simp [followLoop]
  | succ k ih =>
    simp only [List.replicate_succ, followLoop, hstep, ih]
    simp [List.replicate_succ]

/-- Claim C5: The initialization step of a worker emits nothing: on a
successful first read the content is only stored (`follow_file` with a
successful initial read is exactly the loop started from that content),
and observing the worker before any poll yields an empty trace — the
file's pre-existing content is never printed. -/
theorem init_never_emits (args : Args) (file_name : String) (pfn : Bool)
    (v : ℚ) (c : Content) (reads : List ReadResult) :
    follow_file args file_name pfn v (.ok c) reads =
      followLoop args file_name pfn v c reads ∧
    follow_file args file_name pfn v (.ok c) [] = ⟨[], false, c⟩ := by
  exact ⟨rfl, rfl⟩

/-- Claim C6: A snapshot failure is terminal and classified: a
file-not-found failure yields exactly one "has been deleted" stderr
message naming the file, any other I/O or decoding failure exactly one
"is no longer accessible" stderr message naming the file; in each case —
whether the failure is the initial read or any later poll's read — the
worker terminates at once (the remaining reads are never consumed), and
`follow_file` still returns normally (no exception escapes). -/
theorem snapshot_failure_terminal (args : Args) (file_name : String)
    (pfn : Bool) (v : ℚ) (prev : Content) (reads : List ReadResult) :
    follow_file args file_name pfn v .fileNotFound reads =
      ⟨[.err (PROGRAM_NAME ++ ": " ++ (file_name ++ " has been deleted"))],
        true, []⟩ ∧
    follow_file args file_name pfn v .ioError reads =
      ⟨[.err (PROGRAM_NAME ++ ": " ++ (file_name ++
        " is no longer accessible"))], true, []⟩ ∧
    followLoop args file_name pfn v prev (.fileNotFound :: reads) =
      ⟨[.err (PROGRAM_NAME ++ ": " ++ (file_name ++ " has been deleted"))],
        true, prev⟩ ∧
    followLoop args file_name pfn v prev (.ioError :: reads) =
      ⟨[.err (PROGRAM_NAME ++ ": " ++ (file_name ++
        " is no longer accessible"))], true, prev⟩ := by
  refine ⟨rfl, rfl, ?_, ?_⟩ <;> simp [followLoop, print_error_message]

/-! ### The coordinator: `follow_files` and the `--follow` step of `main` -/

/-- The arguments with which `follow_files` starts one worker thread:
`Thread(target=follow_file, args=(file, print_file_name))`
(pytail.py line 108). `polling_interval` is not passed, so the worker runs
with the parameter default; the record carries the value the worker will
therefore use. -/
structure ThreadSpawn where
  file : String
  print_file_name : Bool
  polling_interval : ℚ
deriving DecidableEq, Repr

/-- The function `follow_files` (pytail.py lines 98-113): computes
`print_file_name = len(files) > 1` once, and spawns one worker per file
with that flag and the default polling interval. -/
def follow_files (files : List String) : List ThreadSpawn :=
  files.map fun file =>
    ⟨file, decide (1 < files.length), DEFAULT_POLLING_INTERVAL⟩

/-- Python `file.rstrip("\n")` as applied by `print_lines_from_files`
(pytail.py line 253): removes all trailing newline characters. -/
def rstripNewline (s : String) : String :=
  ⟨(s.data.reverse.dropWhile (fun c => c == '\n')).reverse⟩

/-- Outcome of attempting to print one file in the initial static pass of
`print_lines_from_files` (pytail.py lines 252-270): the `os.path.isdir`
guard, the four `except` handlers, or success with the decoded lines. -/
inductive FileOutcome where
  | isDirectory
  | notFound
  | permissionDenied
  | osError
  | decodeError
  | ok (lines : List String)
deriving DecidableEq, Repr

/-- The `files_printed` accumulator of `print_lines_from_files`
(pytail.py lines 243-272), over a filesystem modelled as a map from file
name to `FileOutcome`: each name is first stripped of trailing newlines;
only a file whose open/read/decode succeeds (the `else` branch completing
without an exception, line 262) is appended. The printing side effects of
the pass do not influence which files are returned. -/
def print_lines_from_files (fs : String → FileOutcome)
    (files : List String) : List String :=
  files.filterMap fun raw =>
    let file := rstripNewline raw
    match fs file with
    | .ok _ => some file
    | _ => none

/-- The `--follow` step of `main` (pytail.py lines 151-153): workers are
spawned via `follow_files(files_printed)` only when `--follow` is set and
`files_printed` is non-empty (Python truthiness of the list); otherwise no
worker is spawned and `main` returns. -/
def main_follow (args : Args) (files_printed : List String) :
    List ThreadSpawn :=
  if args.follow && !files_printed.isEmpty then follow_files files_printed
  else []

/-! ### Header placement checkers -/

/-- Checker `outsHeaded file events` holds when every stdout payload (`out`)
event in `events` is immediately preceded by a header event naming
`file`. -/
def outsHeaded (file : String) : List Event → Bool
  | [] => true
  | .out _ :: _ => false
  | .err _ :: rest => outsHeaded file rest
  | .sleep _ :: rest => outsHeaded file rest
  | [.header _] => true
  | .header g :: .out _ :: rest => (g == file) && outsHeaded file rest
  | .header _ :: .err m :: rest => outsHeaded file (.err m :: rest)
  | .header _ :: .sleep q :: rest => outsHeaded file (.sleep q :: rest)
  | .header _ :: .header g :: rest => outsHeaded file (.header g :: rest)

/-- Checker `hasHeader events` holds when some header event occurs in `events`. -/
def hasHeader : List Event → Bool
  | [] => false
  | .header _ :: _ => true
  | .out _ :: rest => hasHeader rest
  | .err _ :: rest => hasHeader rest
  | .sleep _ :: rest => hasHeader rest

/-- With `print_file_name = true` and headers not suppressed, every
stdout payload in a worker's loop trace is immediately preceded by a
header naming the worker's file. -/
theorem outsHeaded_followLoop (args : Args) (file_name : String) (v : ℚ)
    (hnfh : args.no_file_header = false) :
    ∀ (reads : List ReadResult) (prev : Content),
      outsHeaded file_name
        (followLoop args file_name true v prev reads).events = true := by
  intro reads
  induction reads with
  | nil => intro prev; simp [followLoop, outsHeaded]
  | cons r rs ih =>
    intro prev
    cases r with
    | fileNotFound => simp [followLoop, print_error_message, outsHeaded]
    | ioError => simp [followLoop, print_error_message, outsHeaded]
    | ok next =>
      by_cases hne : prev = next
      · subst hne
        simp [followLoop, pollStep, outsHeaded, ih]
      · by_cases hpre : prev.isPrefixOf next
        · simp [followLoop, pollStep, hne, hpre, print_file_header, hnfh,
            outsHeaded, ih]
        · by_cases hlt : next.length < prev.length <;>
            simp [followLoop, pollStep, hne, hpre, hlt, print_file_header,
              hnfh, print_error_message, outsHeaded, ih]

/-- With `print_file_name = false`, a worker's loop trace contains no
header event at all. -/
theorem hasHeader_followLoop_false (args : Args) (file_name : String)
    (v : ℚ) :
    ∀ (reads : List ReadResult) (prev : Content),
      hasHeader (followLoop args file_name false v prev reads).events
        = false := by
  intro reads
  induction reads with
  | nil => intro prev; simp [followLoop, hasHeader]
  | cons r rs ih =>
    intro prev
    cases r with
    | fileNotFound => simp [followLoop, print_error_message, hasHeader]
    | ioError => simp [followLoop, print_error_message, hasHeader]
    | ok next =>
      by_cases hne : prev = next
      · subst hne
        simp [followLoop, pollStep, hasHeader, ih]
      · by_cases hpre : prev.isPrefixOf next
        · simp [followLoop, pollStep, hne, hpre, hasHeader, ih]
        · by_cases hlt : next.length < prev.length <;>
            simp [followLoop, pollStep, hne, hpre, hlt,
              print_error_message, hasHeader, ih]

/-- Claim C7, counterexample: The claim "when more than one file is
followed, every emission is immediately preceded by a header" is false as
stated: with two files followed (so the spawned workers do receive
`print_file_name = true`) but `--no-file-header` set, an appended-suffix
emission is printed with no header before it. -/
theorem follow_headers_counterexample :
    1 < (["a", "b"] : List String).length ∧
    (follow_files ["a", "b"]).head? =
      some ⟨"a", true, DEFAULT_POLLING_INTERVAL⟩ ∧
    outsHeaded "a"
      (follow_file ⟨true, true⟩ "a" true DEFAULT_POLLING_INTERVAL
        (.ok [ 'x' ]) [.ok [ 'x', 'y' ]]).events = false := by
  exact ⟨by decide, rfl, rfl⟩

/-- Claim C7, amended: When more than one file is followed (so
`follow_files` passes `print_file_name = true`) and `--no-file-header` is
not set, every emission in the worker's trace is immediately preceded by
a header identifying its file; when exactly one file is followed, no
header is ever printed, whatever the header option. -/
theorem follow_headers_amended (args : Args) (files : List String)
    (file_name : String) (v : ℚ) (initial : ReadResult)
    (reads : List ReadResult) :
    (1 < files.length → args.no_file_header = false →
      outsHeaded file_name
        (follow_file args file_name (decide (1 < files.length)) v
          initial reads).events = true) ∧
    (files.length = 1 →
      hasHeader
        (follow_file args file_name (decide (1 < files.length)) v
          initial reads).events = false) := by
  constructor
  · intro hlen hnfh
    have hd : decide (1 < files.length) = true := by simpa using hlen
    rw [hd]
    cases initial with
    | ok c => exact outsHeaded_followLoop args file_name v hnfh reads c
    | fileNotFound => simp [follow_file, print_error_message, outsHeaded]
    | ioError => simp [follow_file, print_error_message, outsHeaded]
  · intro hlen
    have hd : decide (1 < files.length) = false := by simp [hlen]
    rw [hd]
    cases initial with
    | ok c => exact hasHeader_followLoop_false args file_name v reads c
    | fileNotFound => simp [follow_file, print_error_message, hasHeader]
    | ioError => simp [follow_file, print_error_message, hasHeader]

/-- Witness for `follow_headers_amended`: two files, headers enabled, one
appending poll. -/
theorem follow_headers_amended_witness :
    outsHeaded "a"
      (follow_file ⟨true, false⟩ "a"
        (decide (1 < (["a", "b"] : List String).length))
        DEFAULT_POLLING_INTERVAL (.ok [ 'x' ]) [.ok [ 'x', 'y' ]]).events
      = true := by
  exact (follow_headers_amended ⟨true, false⟩ ["a", "b"] "a"
    DEFAULT_POLLING_INTERVAL (.ok [ 'x' ]) [.ok [ 'x', 'y' ]]).1
    (by decide) rfl

/-! ### Polling interval -/

/-- No poll body ever emits a sleep event: sleeps come only from the
`time.sleep(polling_interval)` call between iterations. -/
theorem sleep_not_mem_pollStep (args : Args) (file_name : String)
    (pfn : Bool) (P N : Content) (q : ℚ) :
    Event.sleep q ∉ (pollStep args file_name pfn P N).2 := by
  intro h
  rcases args with ⟨fl, nfh⟩
  by_cases hne : P = N
  · simp [pollStep, hne] at h
  · by_cases hpre : P.isPrefixOf N <;>
      by_cases hlt : N.length < P.length <;> cases pfn <;> cases nfh <;>
      simp [pollStep, hne, hpre, hlt, print_file_header,
        print_error_message] at h

/-- Every sleep in a worker's trace lasts exactly the worker's
`polling_interval` argument: the interval is fixed across the whole run,
never adapted. -/
theorem sleep_events_eq_interval (args : Args) (file_name : String)
    (pfn : Bool) (v : ℚ) :
    ∀ (reads : List ReadResult) (prev : Content) (q : ℚ),
      Event.sleep q ∈ (followLoop args file_name pfn v prev reads).events →
        q = v := by
  intro reads
  induction reads with
  | nil => intro prev q h; simp [followLoop] at h
  | cons r rs ih =>
    intro prev q h
    cases r with
    | fileNotFound => simp [followLoop, print_error_message] at h
    | ioError => simp [followLoop, print_error_message] at h
    | ok next =>
      simp only [followLoop, List.mem_append, List.mem_cons] at h
      rcases h with h | h | h
      · exact absurd h (sleep_not_mem_pollStep args file_name pfn prev next q)
      · exact (Event.sleep.injEq q v).mp h
      · exact ih _ q h

/-- Claim C9: The polling interval is fixed and non-adaptive: every sleep
between polls of a worker equals the worker's single interval value; the
coordinator spawns every worker with that value left unspecified, so each
worker uses the parameter default, which is half a second. -/
theorem polling_interval_fixed (files : List String) (t : ThreadSpawn)
    (ht : t ∈ follow_files files) (args : Args) (file_name : String)
    (pfn : Bool) (v : ℚ) (prev : Content) (reads : List ReadResult)
    (q : ℚ)
    (hq : Event.sleep q ∈ (followLoop args file_name pfn v prev reads).events) :
    t.polling_interval = DEFAULT_POLLING_INTERVAL ∧
    DEFAULT_POLLING_INTERVAL = 1 / 2 ∧ q = v := by
  refine ⟨?_, rfl, sleep_events_eq_interval args file_name pfn v reads prev q hq⟩
  rcases List.mem_map.mp ht with ⟨f, _, rfl⟩
  rfl

/-- Witness for `polling_interval_fixed`: two followed files, one
unchanged poll at the default interval. -/
theorem polling_interval_fixed_witness :
    (⟨"a", true, DEFAULT_POLLING_INTERVAL⟩ : ThreadSpawn).polling_interval
        = DEFAULT_POLLING_INTERVAL ∧
    DEFAULT_POLLING_INTERVAL = 1 / 2 ∧
    DEFAULT_POLLING_INTERVAL = DEFAULT_POLLING_INTERVAL := by
  exact polling_interval_fixed ["a", "b"]
    ⟨"a", true, DEFAULT_POLLING_INTERVAL⟩ (List.Mem.head _) ⟨true, false⟩
    "a" true DEFAULT_POLLING_INTERVAL [ 'x' ] [.ok [ 'x' ]]
    DEFAULT_POLLING_INTERVAL (List.Mem.head _)

/-! ### Which files get a follow worker -/

/-- A file name returned by the static pass was read successfully. -/
theorem mem_print_lines_from_files (fs : String → FileOutcome)
    (files : List String) (f : String)
    (hf : f ∈ print_lines_from_files fs files) :
    ∃ ls, fs f = FileOutcome.ok ls := by
  rcases List.mem_filterMap.mp hf with ⟨raw, _, hsome⟩
  simp only at hsome
  cases hout : fs (rstripNewline raw) with
  | ok ls =>
    rw [hout] at hsome
    simp only [Option.some.injEq] at hsome
    subst hsome
    exact ⟨ls, hout⟩
  | isDirectory => rw [hout] at hsome; simp at hsome
  | notFound => rw [hout] at hsome; simp at hsome
  | permissionDenied => rw [hout] at hsome; simp at hsome
  | osError => rw [hout] at hsome; simp at hsome
  | decodeError => rw [hout] at hsome; simp at hsome

/-- Claim C10: A follow worker is spawned only for files the initial static
pass printed successfully: every spawned worker's file is in
`files_printed` and its open/read/decode succeeded (so a missing path, a
directory, permission-denied, unreadable or undecodable file never gets a
worker); and when nothing was printed successfully, `--follow` spawns no
worker at all. -/
theorem workers_only_for_printed (args : Args)
    (fs : String → FileOutcome) (files : List String) :
    (∀ t, t ∈ main_follow args (print_lines_from_files fs files) →
      t.file ∈ print_lines_from_files fs files ∧
      ∃ ls, fs t.file = FileOutcome.ok ls) ∧
    (print_lines_from_files fs files = [] →
      main_follow args (print_lines_from_files fs files) = []) := by
  constructor
  · intro t ht
    have hmem : t.file ∈ print_lines_from_files fs files := by
      unfold main_follow at ht
      split at ht
      · rcases List.mem_map.mp ht with ⟨f, hf, rfl⟩
        exact hf
      · simp at ht
    exact ⟨hmem, mem_print_lines_from_files fs files t.file hmem⟩
  · intro h
    simp [main_follow, h]

/-- Witness for `workers_only_for_printed`: one readable file, one
missing file; a worker is spawned exactly for the readable one. -/
theorem workers_only_for_printed_witness :
    (⟨"good", false, DEFAULT_POLLING_INTERVAL⟩ : ThreadSpawn).file ∈
      print_lines_from_files
        (fun s => if s = "good" then FileOutcome.ok ["line"]
          else FileOutcome.notFound) ["good", "bad"] ∧
    ∃ ls,
      (fun s => if s = "good" then FileOutcome.ok ["line"]
        else FileOutcome.notFound)
        (⟨"good", false, DEFAULT_POLLING_INTERVAL⟩ : ThreadSpawn).file =
      FileOutcome.ok ls := by
  exact (workers_only_for_printed ⟨true, false⟩
    (fun s => if s = "good" then FileOutcome.ok ["line"]
      else FileOutcome.notFound) ["good", "bad"]).1
    ⟨"good", false, DEFAULT_POLLING_INTERVAL⟩ (List.Mem.head _)

end PyTail
